import Mathlib

/-!
# Verification of the HLoC camera-pose-estimation pipeline script

A shallow embedding of `hloc_pose_estimation.py`: the video frame-extraction
loop, input-file classification, image listing, matcher-configuration
resolution, pose export (rigid-transform inversion, quaternion algebra,
TUM/COLMAP/JSON formatting), trajectory analysis, and the top-level
controller flow, together with proofs of the specification's claims.

Numeric values that the script holds as floating-point numbers are embedded
as exact rationals (and reals where square roots occur); `"%.6f"` formatting
is embedded as rounding to six decimal places.
-/

namespace HlocPose

/-! ## Python path helpers (`pathlib.PurePath.suffix` / `.stem`, `str.lower`) -/

/-- Split a character list at a separator character (components of a path). -/
def splitChars (sep : Char) : List Char → List Char → List (List Char)
  | [], acc => [acc.reverse]
  | c :: rest, acc =>
    if c = sep then acc.reverse :: splitChars sep rest []
    else splitChars sep rest (c :: acc)

/-- The final path component, as in `pathlib.PurePath.name`. -/
def lastComponent (s : String) : String :=
  String.mk ((splitChars '/' s.data []).getLastD [])

/-- Index of the last `'.'` in a character list, scanning left to right. -/
def lastDotIdxAux : List Char → Nat → Option Nat → Option Nat
  | [], _, acc => acc
  | c :: rest, i, acc =>
    lastDotIdxAux rest (i + 1) (if c = '.' then some i else acc)

def lastDotIdx (cs : List Char) : Option Nat :=
  lastDotIdxAux cs 0 none

/-- `pathlib.PurePath.suffix`: the extension of the final component,
including the dot; empty when the last dot is leading, trailing or absent. -/
def pySuffix (s : String) : String :=
  let nm := lastComponent s
  match lastDotIdx nm.data with
  | none => ""
  | some i =>
    if 0 < i ∧ i < nm.data.length - 1 then String.mk (nm.data.drop i) else ""

/-- `pathlib.PurePath.stem`: the final component without its suffix. -/
def pyStem (s : String) : String :=
  let nm := lastComponent s
  match lastDotIdx nm.data with
  | none => nm
  | some i =>
    if 0 < i ∧ i < nm.data.length - 1 then String.mk (nm.data.take i) else nm

/-- ASCII lower-casing of one character (`str.lower` on the alphabets used). -/
def lowerChar (c : Char) : Char :=
  if 'A' ≤ c ∧ c ≤ 'Z' then Char.ofNat (c.toNat + 32) else c

/-- `str.lower` restricted to ASCII, which covers every extension compared. -/
def lowerStr (s : String) : String :=
  String.mk (s.data.map lowerChar)

/-- Python `str.startswith`, as a prefix test on the character lists. -/
def strStartsWith (s p : String) : Bool :=
  p.data.isPrefixOf s.data

/-- Boolean strict lexicographic comparison on character lists, matching the
`List Char` order underlying the `String` order. -/
def strLtb : List Char → List Char → Bool
  | [], [] => false
  | [], _ :: _ => true
  | _ :: _, [] => false
  | a :: as, b :: bs =>
    if a < b then true else if b < a then false else strLtb as bs

/-- Boolean lexicographic `≤` on strings (Python's string order on the
ASCII names compared here). -/
def strLeb (a b : String) : Bool :=
  !(strLtb b.data a.data)

/-- `video_extensions` from `process_input_files`. -/
def videoExtensions : List String :=
  [".mp4", ".avi", ".mov", ".mkv", ".wmv", ".flv", ".webm"]

/-- `image_extensions` from `process_input_files` / `collect_image_list`. -/
def imageExtensions : List String :=
  [".jpg", ".jpeg", ".png", ".bmp", ".tiff", ".tif"]

/-! ## `extract_frames_from_video` -/

/-- The `while` guard `max_frames is None or extracted_count < max_frames`. -/
def framesCond (max_frames : Option Nat) (extracted : Nat) : Bool :=
  match max_frames with
  | none => true
  | some m => extracted < m

/-- The read/write loop of `extract_frames_from_video`, driven by the list of
decodable frame indices still to be read.  Each written frame is recorded as
`(frame_count, extracted_count)`: its decode position and its output index. -/
def extractLoop (frame_skip : Nat) (max_frames : Option Nat) :
    List Nat → Nat → List (Nat × Nat)
  | [], _ => []
  | fi :: rest, extracted =>
    if framesCond max_frames extracted then
      if fi % frame_skip == 0 then
        (fi, extracted) :: extractLoop frame_skip max_frames rest (extracted + 1)
      else
        extractLoop frame_skip max_frames rest extracted
    else []

/-- All frames written by `extract_frames_from_video` on a video with
`total_frames` decodable frames, as `(decode index, output index)` pairs. -/
def extractFramesFromVideo (total_frames frame_skip : Nat)
    (max_frames : Option Nat) : List (Nat × Nat) :=
  extractLoop frame_skip max_frames (List.range total_frames) 0

/-- The `extracted_count` value returned by `extract_frames_from_video`. -/
def extractFramesReturn (total_frames frame_skip : Nat)
    (max_frames : Option Nat) : Nat :=
  (extractFramesFromVideo total_frames frame_skip max_frames).length

/-- Zero-padding to six digits, as in the `f"{n:06d}"` format. -/
def pad6 (n : Nat) : String :=
  String.mk (List.replicate (6 - (toString n).length) '0') ++ toString n

/-- The output filename `f"frame_{extracted_count:06d}.jpg"`. -/
def frameFilename (extracted : Nat) : String :=
  "frame_" ++ pad6 extracted ++ ".jpg"

/-- `video_output_dir = images_dir / file_path.stem`. -/
def videoOutputDir (images_dir name : String) : String :=
  images_dir ++ "/" ++ pyStem name

/-! ## `process_input_files` -/

/-- One directory entry of the input directory: its name, whether it is a
regular file, and (when it is a video) how many frames decode from it. -/
structure InputEntry where
  name : String
  isFile : Bool
  decodableFrames : Nat
deriving DecidableEq

inductive FileKind where
  | video
  | image
deriving DecidableEq

/-- The body of the `for file_path in input_dir.iterdir()` loop: classify one
entry and produce its `(name, kind, count)` triple, or skip it. -/
def processOne (frame_skip : Nat) (max_images : Option Nat) (e : InputEntry) :
    Option (String × FileKind × Nat) :=
  if e.isFile then
    let ext := lowerStr (pySuffix e.name)
    if ext ∈ videoExtensions then
      some (e.name, FileKind.video,
        extractFramesReturn e.decodableFrames frame_skip max_images)
    else if ext ∈ imageExtensions then
      some (e.name, FileKind.image, 1)
    else none
  else none

/-- `process_input_files`: `none` models a missing input directory.  Returns
the processed-file triples and the total image count. -/
def processInputFiles (input_dir : Option (List InputEntry))
    (frame_skip : Nat) (max_images : Option Nat) :
    List (String × FileKind × Nat) × Nat :=
  match input_dir with
  | none => ([], 0)
  | some entries =>
    let processed := entries.filterMap (processOne frame_skip max_images)
    (processed, (processed.map (fun t => t.2.2)).sum)

/-! ## `collect_image_list` -/

/-- One entry found by `images_dir.rglob("*")`: its path relative to
`images_dir` (posix separators) and whether it is a regular file. -/
structure PoolEntry where
  rel : String
  isFile : Bool
deriving DecidableEq

/-- The filter `file_path.suffix.lower() in {'.jpg', ...}`. -/
def isAllowedImage (rel : String) : Bool :=
  lowerStr (pySuffix rel) ∈ imageExtensions

/-- `collect_image_list`: `none` models a missing `images` directory. -/
def collectImageList (images_dir : Option (List PoolEntry)) : List String :=
  match images_dir with
  | none => []
  | some entries =>
    let l := (entries.filter (fun e => e.isFile && isAllowedImage e.rel)).map
      PoolEntry.rel
    List.insertionSort (fun a b => strLeb a b = true) l

/-! ## Matcher-configuration resolution in `extract_and_match_features` -/

/-- The `matcher_conf` selection chain of `extract_and_match_features`,
returning the key looked up in `match_features.confs`. -/
def resolveMatcherConf (feature_extractor feature_matcher : String) : String :=
  if feature_matcher = "superglue" then "superglue"
  else if strStartsWith feature_extractor "aliked" && (feature_matcher = "lightglue") then
    "aliked+lightglue"
  else "nearest_neighbor"

/-! ## NetVLAD flag plumbing (`argparse` + environment override) -/

/-- `argparse` `action="store_true"`: the parsed value is `True` when the flag
appears and the default otherwise. -/
def storeTrueFlag (dflt : Bool) (passed : Bool) : Bool :=
  if passed then true else dflt

/-- The effective `use_netvlad_retrieval` value: the CLI value (default
`True`), overridden when `os.getenv('USE_NETVLAD_RETRIEVAL')` is truthy by
`os.getenv(...).lower() == 'true'`. -/
def effectiveUseNetvlad (passed : Bool) (env : Option String) : Bool :=
  let cli := storeTrueFlag true passed
  match env with
  | none => cli
  | some s => if s = "" then cli else lowerStr s == "true"

inductive PairStrategy where
  | retrieval
  | exhaustive
deriving DecidableEq

/-- The pair-generation branch of `extract_and_match_features`. -/
def choosePairStrategy (useNetvlad : Bool) : PairStrategy :=
  if useNetvlad then PairStrategy.retrieval else PairStrategy.exhaustive

/-! ## Rigid transforms and quaternions (`pycolmap.Rigid3d` as used here)

The script reads `image.cam_from_world`, inverts it, and reads off the
rotation matrix, the translation, and the quaternion, which it documents as
`[w, x, y, z]`.  We embed the transform as a quaternion plus translation,
with the rotation matrix obtained by the standard unit-quaternion formula. -/

structure Quat where
  w : ℚ
  x : ℚ
  y : ℚ
  z : ℚ
deriving DecidableEq

abbrev Vec3 := ℚ × ℚ × ℚ

def quatConj (q : Quat) : Quat :=
  ⟨q.w, -q.x, -q.y, -q.z⟩

def quatNormSq (q : Quat) : ℚ :=
  q.w ^ 2 + q.x ^ 2 + q.y ^ 2 + q.z ^ 2

@[ext]
structure Mat3 where
  m00 : ℚ
  m01 : ℚ
  m02 : ℚ
  m10 : ℚ
  m11 : ℚ
  m12 : ℚ
  m20 : ℚ
  m21 : ℚ
  m22 : ℚ
deriving DecidableEq

/-- The rotation matrix of a unit quaternion (`Rotation3d.matrix()`). -/
def quatToMat (q : Quat) : Mat3 where
  m00 := 1 - 2 * (q.y ^ 2 + q.z ^ 2)
  m01 := 2 * (q.x * q.y - q.w * q.z)
  m02 := 2 * (q.x * q.z + q.w * q.y)
  m10 := 2 * (q.x * q.y + q.w * q.z)
  m11 := 1 - 2 * (q.x ^ 2 + q.z ^ 2)
  m12 := 2 * (q.y * q.z - q.w * q.x)
  m20 := 2 * (q.x * q.z - q.w * q.y)
  m21 := 2 * (q.y * q.z + q.w * q.x)
  m22 := 1 - 2 * (q.x ^ 2 + q.y ^ 2)

def matTranspose (M : Mat3) : Mat3 :=
  ⟨M.m00, M.m10, M.m20, M.m01, M.m11, M.m21, M.m02, M.m12, M.m22⟩

def matVec (M : Mat3) (v : Vec3) : Vec3 :=
  (M.m00 * v.1 + M.m01 * v.2.1 + M.m02 * v.2.2,
   M.m10 * v.1 + M.m11 * v.2.1 + M.m12 * v.2.2,
   M.m20 * v.1 + M.m21 * v.2.1 + M.m22 * v.2.2)

def vadd (a b : Vec3) : Vec3 :=
  (a.1 + b.1, a.2.1 + b.2.1, a.2.2 + b.2.2)

def vneg (a : Vec3) : Vec3 :=
  (-a.1, -a.2.1, -a.2.2)

/-- Rotate a vector by a (unit) quaternion, via its rotation matrix. -/
def rotateByQuat (q : Quat) (v : Vec3) : Vec3 :=
  matVec (quatToMat q) v

/-- A rigid transform `x ↦ R x + t` with rotation stored as a quaternion. -/
structure Rigid3d where
  rotation : Quat
  translation : Vec3
deriving DecidableEq

def applyRigid (T : Rigid3d) (p : Vec3) : Vec3 :=
  vadd (rotateByQuat T.rotation p) T.translation

/-- `Rigid3d.inverse()`: rotation is conjugated, translation is `-(R⁻¹ t)`. -/
def rigidInverse (T : Rigid3d) : Rigid3d :=
  ⟨quatConj T.rotation, vneg (rotateByQuat (quatConj T.rotation) T.translation)⟩

/-! ## Reconstruction model and `export_camera_poses` -/

/-- A 2D observation of a registered image; `point3DId` is `some` exactly
when `p2D.has_point3D()` holds. -/
structure Point2D where
  point3DId : Option Nat
deriving DecidableEq

/-- One registered image of the reconstruction model. -/
structure ImageR where
  imageId : Nat
  name : String
  cameraId : Nat
  camFromWorld : Rigid3d
  points2D : List Point2D
deriving DecidableEq

/-- The reconstruction model, with `images` flattened to the iteration order
of `model.images.items()`. -/
structure ModelR where
  images : List ImageR
deriving DecidableEq

/-- One entry of the `camera_poses` list built by `export_camera_poses`. -/
structure PoseRecord where
  imageId : Nat
  imageName : String
  cameraId : Nat
  translation : Vec3
  rotationMatrix : Mat3
  quaternion : Quat
  numPoints3D : Nat
deriving DecidableEq

/-- The loop body of `export_camera_poses`: invert `cam_from_world` and read
off the pose fields. -/
def buildPoseRecord (img : ImageR) : PoseRecord :=
  let worldFromCam := rigidInverse img.camFromWorld
  { imageId := img.imageId
    imageName := img.name
    cameraId := img.cameraId
    translation := worldFromCam.translation
    rotationMatrix := quatToMat worldFromCam.rotation
    quaternion := worldFromCam.rotation
    numPoints3D := img.points2D.countP (fun p => p.point3DId.isSome) }

/-- The comparison behind `camera_poses.sort(key=lambda x: x['image_name'])`. -/
def poseNameLe (a b : PoseRecord) : Prop :=
  strLeb a.imageName b.imageName = true

instance : DecidableRel poseNameLe :=
  fun a b => inferInstanceAs (Decidable (strLeb a.imageName b.imageName = true))

def sortPoses (l : List PoseRecord) : List PoseRecord :=
  List.insertionSort poseNameLe l

/-- The sorted `camera_poses` list, which is also the JSON export. -/
def exportCameraPoses (model : ModelR) : List PoseRecord :=
  sortPoses (model.images.map buildPoseRecord)

/-- `f"{v:.6f}"` embedded as rounding to six decimal places. -/
def fmt6 (q : ℚ) : ℚ :=
  (round (q * 1000000) : ℤ) / 1000000

/-- One data line of `trajectory_tum.txt`
(`{i:06d} tx ty tz qx qy qz qw`, each value at six decimals). -/
structure TumLine where
  timestamp : Nat
  tx : ℚ
  ty : ℚ
  tz : ℚ
  qx : ℚ
  qy : ℚ
  qz : ℚ
  qw : ℚ
deriving DecidableEq

def mkTumLine (i : Nat) (p : PoseRecord) : TumLine where
  timestamp := i
  tx := fmt6 p.translation.1
  ty := fmt6 p.translation.2.1
  tz := fmt6 p.translation.2.2
  qx := fmt6 p.quaternion.x
  qy := fmt6 p.quaternion.y
  qz := fmt6 p.quaternion.z
  qw := fmt6 p.quaternion.w

/-- One data line of `images_poses.txt`
(`image_id qw qx qy qz tx ty tz camera_id image_name`). -/
structure ColmapLine where
  imageId : Nat
  cqw : ℚ
  cqx : ℚ
  cqy : ℚ
  cqz : ℚ
  ctx : ℚ
  cty : ℚ
  ctz : ℚ
  cameraId : Nat
  imageName : String
deriving DecidableEq

def mkColmapLine (p : PoseRecord) : ColmapLine where
  imageId := p.imageId
  cqw := fmt6 p.quaternion.w
  cqx := fmt6 p.quaternion.x
  cqy := fmt6 p.quaternion.y
  cqz := fmt6 p.quaternion.z
  ctx := fmt6 p.translation.1
  cty := fmt6 p.translation.2.1
  ctz := fmt6 p.translation.2.2
  cameraId := p.cameraId
  imageName := p.imageName

/-- The data lines of `trajectory_tum.txt`, in file order. -/
def tumExport (model : ModelR) : List TumLine :=
  (exportCameraPoses model).enum.map (fun p => mkTumLine p.1 p.2)

/-- The data lines of `images_poses.txt`, in file order. -/
def colmapExport (model : ModelR) : List ColmapLine :=
  (exportCameraPoses model).map mkColmapLine

/-- The two comment lines opening `trajectory_tum.txt`. -/
def tumHeader : List String :=
  ["# TUM trajectory format", "# timestamp tx ty tz qx qy qz qw"]

/-- The two comment lines opening `images_poses.txt`. -/
def colmapHeader : List String :=
  ["# COLMAP image poses",
   "# IMAGE_ID, QW, QX, QY, QZ, TX, TY, TZ, CAMERA_ID, NAME, POINTS2D"]

/-! ## `analyze_trajectory` -/

/-- One entry of the `distances` array:
`np.sqrt(np.sum(np.diff(positions, axis=0)**2, axis=1))` on one row. -/
noncomputable def stepDistance (p q : Vec3) : ℝ :=
  Real.sqrt (((q.1 - p.1 : ℚ) : ℝ) ^ 2 + ((q.2.1 - p.2.1 : ℚ) : ℝ) ^ 2 +
    ((q.2.2 - p.2.2 : ℚ) : ℝ) ^ 2)

/-- The whole `distances` array over consecutive positions. -/
noncomputable def consecutiveDistances : List Vec3 → List ℝ
  | p :: q :: rest => stepDistance p q :: consecutiveDistances (q :: rest)
  | _ => []

/-- `np.min` over a nonempty list (componentwise use below). -/
def compMin : List ℚ → ℚ
  | [] => 0
  | a :: t => t.foldl min a

/-- `np.max` over a nonempty list (componentwise use below). -/
def compMax : List ℚ → ℚ
  | [] => 0
  | a :: t => t.foldl max a

structure TrajSummary where
  totalDistance : ℝ
  meanStep : ℝ
  bboxSize : Vec3

/-- `analyze_trajectory`: returns early (no summary) for fewer than two
poses, otherwise the logged statistics. -/
noncomputable def analyzeTrajectory (poses : List PoseRecord) :
    Option TrajSummary :=
  if poses.length < 2 then none
  else
    let positions := poses.map PoseRecord.translation
    let distances := consecutiveDistances positions
    some
      { totalDistance := distances.sum
        meanStep := distances.sum / (distances.length : ℝ)
        bboxSize :=
          (compMax (positions.map Prod.fst) - compMin (positions.map Prod.fst),
           compMax (positions.map (fun v => v.2.1)) -
             compMin (positions.map (fun v => v.2.1)),
           compMax (positions.map (fun v => v.2.2)) -
             compMin (positions.map (fun v => v.2.2))) }

/-- `reconstruction_rate = len(model.images) / len(image_list) * 100`. -/
def reconstructionRate (model : ModelR) (imageList : List String) : ℚ :=
  (model.images.length : ℚ) / (imageList.length : ℚ) * 100

/-! ## The `main` controller -/

/-- `extract_and_match_features` returns `False` exactly on an empty image
list; all heavy work is delegated to external libraries. -/
def extractAndMatchFeatures (imageList : List String) : Bool :=
  imageList.length != 0

/-- `run_sfm_reconstruction` returns `None` on an empty image list, and
otherwise whatever the external SfM engine produced. -/
def runSfmReconstruction (imageList : List String)
    (externalResult : Option ModelR) : Option ModelR :=
  if imageList.length = 0 then none else externalResult

/-- Everything `main` depends on: the input directory (or its absence), the
state of the temp image pool after collection, the stride parameters, and
the result handed back by the external SfM engine. -/
structure RunEnv where
  inputDir : Option (List InputEntry)
  imagesPool : List PoolEntry
  frameSkip : Nat
  maxImages : Option Nat
  sfmModel : Option ModelR
deriving DecidableEq

/-- The process exit code together with the poses that were exported, if the
run reached `export_camera_poses` at all. -/
structure RunOutcome where
  exitCode : Nat
  exported : Option (List PoseRecord)
deriving DecidableEq

/-- The decision flow of `main` from `process_input_files` to
`export_camera_poses`, with each failure check in source order. -/
def mainRun (env : RunEnv) : RunOutcome :=
  let pr := processInputFiles env.inputDir env.frameSkip env.maxImages
  if pr.2 = 0 then ⟨1, none⟩
  else
    let imageList := collectImageList (some env.imagesPool)
    if imageList.length = 0 then ⟨1, none⟩
    else if !extractAndMatchFeatures imageList then ⟨1, none⟩
    else
      match runSfmReconstruction imageList env.sfmModel with
      | none => ⟨1, none⟩
      | some model => ⟨0, some (exportCameraPoses model)⟩

/-! ## Auxiliary description of the extraction loop's output -/

/-- Pair each element with consecutive output indices starting at `start`. -/
def numberFrom (start : Nat) : List Nat → List (Nat × Nat)
  | [] => []
  | k :: ks => (k, start) :: numberFrom (start + 1) ks

/-! ## Spec-side definition for the trajectory claim

Modelled from the spec: "total path length as sum of consecutive Euclidean
distances between sorted poses", stated with Mathlib's Euclidean metric so
the code's `sqrt`-of-sum-of-squares formula can be compared against it. -/

noncomputable def toE (v : Vec3) : EuclideanSpace ℝ (Fin 3) :=
  (WithLp.equiv 2 (Fin 3 → ℝ)).symm ![(v.1 : ℝ), (v.2.1 : ℝ), (v.2.2 : ℝ)]

noncomputable def specEuclidPathLength : List (EuclideanSpace ℝ (Fin 3)) → ℝ
  | p :: q :: rest => dist p q + specEuclidPathLength (q :: rest)
  | _ => 0

/-! ## Concrete runs used as witnesses and counterexamples -/

/-- A registered image with the identity pose and no observations. -/
def imgA : ImageR :=
  { imageId := 1, name := "a.jpg", cameraId := 1,
    camFromWorld := ⟨⟨1, 0, 0, 0⟩, (0, 0, 0)⟩, points2D := [] }

/-- A second registered image, translated, with two observations of which
one has a 3D correspondence. -/
def imgB : ImageR :=
  { imageId := 2, name := "b.jpg", cameraId := 1,
    camFromWorld := ⟨⟨1, 0, 0, 0⟩, (1, 0, 0)⟩,
    points2D := [⟨some 5⟩, ⟨none⟩] }

/-- An input directory holding one still image. -/
def oneImageInput : List InputEntry :=
  [⟨"a.jpg", true, 0⟩]

/-- The image pool after collecting `oneImageInput`. -/
def oneImagePool : List PoolEntry :=
  [⟨"a.jpg", true⟩]

/-- An input directory holding two still images. -/
def twoImageInput : List InputEntry :=
  [⟨"a.jpg", true, 0⟩, ⟨"b.jpg", true, 0⟩]

/-- The image pool after collecting `twoImageInput`. -/
def twoImagePool : List PoolEntry :=
  [⟨"a.jpg", true⟩, ⟨"b.jpg", true⟩]

/-- A run whose input directory is missing. -/
def envMissingInput : RunEnv :=
  { inputDir := none, imagesPool := [], frameSkip := 1, maxImages := none,
    sfmModel := none }

/-- A run where the external SfM engine returns no model. -/
def envNullModel : RunEnv :=
  { inputDir := some oneImageInput, imagesPool := oneImagePool,
    frameSkip := 1, maxImages := none, sfmModel := none }

/-- A run whose reconstruction registered zero images. -/
def envZeroRegistered : RunEnv :=
  { inputDir := some oneImageInput, imagesPool := oneImagePool,
    frameSkip := 1, maxImages := none, sfmModel := some ⟨[]⟩ }

/-- A successful run whose reconstruction registered exactly one image. -/
def envOnePose : RunEnv :=
  { inputDir := some oneImageInput, imagesPool := oneImagePool,
    frameSkip := 1, maxImages := none, sfmModel := some ⟨[imgA]⟩ }

/-- A successful run whose reconstruction registered two images. -/
def envTwoPoses : RunEnv :=
  { inputDir := some twoImageInput, imagesPool := twoImagePool,
    frameSkip := 1, maxImages := none, sfmModel := some ⟨[imgA, imgB]⟩ }

/-- A two-image model used to instantiate the export-consistency claim. -/
def modelTwo : ModelR :=
  ⟨[imgB, imgA]⟩

/-- The model reconstructed in `envTwoPoses`. -/
def modelAB : ModelR :=
  ⟨[imgA, imgB]⟩

/-! ## String-order lemmas -/

theorem strLtb_iff :
    ∀ as bs : List Char, strLtb as bs = true ↔ List.Lex (· < ·) as bs := by
  intro as
  induction as with
  | nil =>
    intro bs
    cases bs with
    | nil =>
      simp only [strLtb, Bool.false_eq_true, false_iff]
      exact fun h => nomatch h
    | cons b bs =>
      simp only [strLtb, true_iff]
      exact List.Lex.nil
  | cons a as ih =>
    intro bs
    cases bs with
    | nil =>
      simp only [strLtb, Bool.false_eq_true, false_iff]
      exact fun h => nomatch h
    | cons b bs =>
      simp only [strLtb]
      by_cases hab : a < b
      · simp only [hab, if_true, true_iff]
        exact List.Lex.rel hab
      · by_cases hba : b < a
        · simp only [hab, hba, if_false, if_true, Bool.false_eq_true, false_iff]
          intro h
          cases h with
          | rel h1 => exact hab h1
          | cons h3 => exact absurd hba (lt_irrefl _)
        · have heq : a = b := le_antisymm (not_lt.mp hba) (not_lt.mp hab)
          subst heq
          rw [if_neg hab, if_neg hab, ih bs]
          constructor
          · exact fun h => List.Lex.cons h
          · intro h
            cases h with
            | rel h1 => exact absurd h1 hab
            | cons h3 => exact h3

theorem strLeb_iff (a b : String) : strLeb a b = true ↔ a ≤ b := by
  have h1 : strLeb a b = true ↔ ¬(strLtb b.data a.data = true) := by
    cases hcase : strLtb b.data a.data <;> simp [strLeb, hcase]
  rw [h1, strLtb_iff]
  constructor
  · intro h hba
    exact h (String.lt_iff_toList_lt.mp hba)
  · intro h hlex
    exact h (String.lt_iff_toList_lt.mpr hlex)

theorem strLeb_total (a b : String) : strLeb a b = true ∨ strLeb b a = true := by
  rw [strLeb_iff, strLeb_iff]
  exact le_total a b

theorem strLeb_trans {a b c : String} (hab : strLeb a b = true)
    (hbc : strLeb b c = true) : strLeb a c = true := by
  rw [strLeb_iff] at *
  exact le_trans hab hbc

instance : IsTotal String (fun a b => strLeb a b = true) :=
  ⟨strLeb_total⟩

instance : IsTrans String (fun a b => strLeb a b = true) :=
  ⟨fun _ _ _ => strLeb_trans⟩

instance : IsTotal PoseRecord poseNameLe :=
  ⟨fun a b => strLeb_total a.imageName b.imageName⟩

instance : IsTrans PoseRecord poseNameLe :=
  ⟨fun _ _ _ hab hbc => strLeb_trans hab hbc⟩

/-! ## Rounding bound for six-decimal formatting -/

theorem fmt6_abs_sub_le (q : ℚ) : |fmt6 q - q| ≤ 1 / 1000000 := by
  have h := abs_sub_round (q * 1000000)
  rw [abs_sub_comm] at h
  have key : fmt6 q - q = ((round (q * 1000000) : ℤ) - q * 1000000) / 1000000 := by
    rw [fmt6]
    ring
  rw [key, abs_div]
  have hpos : |(1000000 : ℚ)| = 1000000 := by norm_num
  rw [hpos]
  rw [div_le_div_iff₀ (by norm_num) (by norm_num)]
  calc |(round (q * 1000000) : ℤ) - q * 1000000| * 1000000
      ≤ (1 / 2) * 1000000 := by
        exact mul_le_mul_of_nonneg_right h (by norm_num)
    _ ≤ 1 * 1000000 := by norm_num

/-! ## Extraction-loop lemmas -/

theorem numberFrom_map_fst (start : Nat) (l : List Nat) :
    (numberFrom start l).map Prod.fst = l := by
  induction l generalizing start with
  | nil => rfl
  | cons k ks ih => simp [numberFrom, ih]

theorem numberFrom_map_snd (start : Nat) (l : List Nat) :
    (numberFrom start l).map Prod.snd = List.range' start l.length := by
  induction l generalizing start with
  | nil => rfl
  | cons k ks ih => simp [numberFrom, ih, List.range'_succ]

theorem numberFrom_length (start : Nat) (l : List Nat) :
    (numberFrom start l).length = l.length := by
  induction l generalizing start with
  | nil => rfl
  | cons k ks ih => simp [numberFrom, ih]

theorem extractLoop_none (frame_skip : Nat) :
    ∀ (l : List Nat) (extracted : Nat),
      extractLoop frame_skip none l extracted =
        numberFrom extracted (l.filter (fun k => k % frame_skip == 0)) := by
  intro l
  induction l with
  | nil => intro e; rfl
  | cons fi rest ih =>
    intro e
    by_cases hf : (fi % frame_skip == 0) = true
    · simp [extractLoop, framesCond, hf, List.filter_cons, numberFrom, ih]
    · simp [extractLoop, framesCond, hf, List.filter_cons, ih]

theorem extractLoop_some (frame_skip m : Nat) :
    ∀ (l : List Nat) (extracted : Nat),
      extractLoop frame_skip (some m) l extracted =
        numberFrom extracted
          ((l.filter (fun k => k % frame_skip == 0)).take (m - extracted)) := by
  intro l
  induction l with
  | nil => intro e; simp [extractLoop, numberFrom]
  | cons fi rest ih =>
    intro e
    by_cases hm : e < m
    · have hcond : framesCond (some m) e = true := by
        simp [framesCond, hm]
      by_cases hf : (fi % frame_skip == 0) = true
      · have hsub : m - e = (m - (e + 1)) + 1 := by omega
        simp only [extractLoop, hcond, if_true, hf, List.filter_cons, hsub,
          List.take_succ_cons, numberFrom, ih]
      · simp only [extractLoop, hcond, if_true, hf, List.filter_cons,
          Bool.false_eq_true, if_false, ih]
    · have hcond : framesCond (some m) e = false := by
        simp [framesCond]
        omega
      have hsub : m - e = 0 := by omega
      simp [extractLoop, hcond, hsub, numberFrom]

/-- The number of multiples of `N` strictly below `F` is `⌈F / N⌉`. -/
theorem count_multiples (N : Nat) (hN : 1 ≤ N) :
    ∀ F : Nat,
      ((List.range F).filter (fun k => k % N == 0)).length = (F + N - 1) / N := by
  intro F
  induction F with
  | zero =>
    simp only [List.range_zero, List.filter_nil, List.length_nil]
    symm
    apply Nat.div_eq_of_lt
    omega
  | succ F ih =>
    rw [List.range_succ, List.filter_append, List.length_append, ih]
    obtain ⟨q, r, hr, hF⟩ : ∃ q r, r < N ∧ F = N * q + r :=
      ⟨F / N, F % N, Nat.mod_lt _ (by omega), (Nat.div_add_mod F N).symm⟩
    have hmodF : F % N = r := by
      subst hF
      rw [Nat.mul_add_mod]
      exact Nat.mod_eq_of_lt hr
    have hq1 : N * (q + 1) = N * q + N := by ring
    by_cases hz : r = 0
    · have hfil : ((List.filter (fun k => k % N == 0) [F])).length = 1 := by
        simp [List.filter_cons, hmodF, hz]
      rw [hfil]
      have e1 : F + N - 1 = N * q + (N - 1) := by omega
      have e2 : F + 1 + N - 1 = N * (q + 1) := by omega
      rw [e1, e2, Nat.mul_add_div (by omega), Nat.mul_div_cancel_left _ (by omega),
        Nat.div_eq_of_lt (by omega : N - 1 < N)]
    · have hfil : ((List.filter (fun k => k % N == 0) [F])).length = 0 := by
        simp [List.filter_cons, hmodF, hz]
      rw [hfil]
      have e1 : F + N - 1 = N * (q + 1) + (r - 1) := by omega
      have e2 : F + 1 + N - 1 = N * (q + 1) + r := by omega
      rw [e1, e2, Nat.mul_add_div (by omega), Nat.mul_add_div (by omega),
        Nat.div_eq_of_lt (by omega : r - 1 < N), Nat.div_eq_of_lt hr]

/-! ## Quaternion and rigid-transform lemmas -/

theorem quatConj_conj (q : Quat) : quatConj (quatConj q) = q := by
  cases q
  simp [quatConj]

theorem quatNormSq_conj (q : Quat) : quatNormSq (quatConj q) = quatNormSq q := by
  cases q
  simp only [quatNormSq, quatConj]
  ring

theorem quatToMat_conj (q : Quat) :
    quatToMat (quatConj q) = matTranspose (quatToMat q) := by
  cases q
  simp only [quatToMat, quatConj, matTranspose]
  ext <;> ring

theorem rotate_conj_rotate (q : Quat) (h : quatNormSq q = 1) (v : Vec3) :
    rotateByQuat (quatConj q) (rotateByQuat q v) = v := by
  obtain ⟨w, x, y, z⟩ := q
  obtain ⟨v1, v2, v3⟩ := v
  simp only [quatNormSq] at h
  simp only [rotateByQuat, quatToMat, quatConj, matVec, Prod.mk.injEq]
  refine ⟨?_, ?_, ?_⟩
  · linear_combination (4 * ((y ^ 2 + z ^ 2) * v1 - x * y * v2 - x * z * v3)) * h
  · linear_combination (4 * (-(x * y) * v1 + (x ^ 2 + z ^ 2) * v2 - y * z * v3)) * h
  · linear_combination (4 * (-(x * z) * v1 - y * z * v2 + (x ^ 2 + y ^ 2) * v3)) * h

theorem rotate_rotate_conj (q : Quat) (h : quatNormSq q = 1) (v : Vec3) :
    rotateByQuat q (rotateByQuat (quatConj q) v) = v := by
  have h2 : quatNormSq (quatConj q) = 1 := by rw [quatNormSq_conj]; exact h
  have := rotate_conj_rotate (quatConj q) h2 v
  rwa [quatConj_conj] at this

theorem applyRigid_inverse_left (T : Rigid3d) (h : quatNormSq T.rotation = 1)
    (p : Vec3) : applyRigid (rigidInverse T) (applyRigid T p) = p := by
  obtain ⟨⟨w, x, y, z⟩, t1, t2, t3⟩ := T
  obtain ⟨p1, p2, p3⟩ := p
  simp only [quatNormSq] at h
  simp only [applyRigid, rigidInverse, rotateByQuat, quatToMat, quatConj, matVec,
    vadd, vneg, Prod.mk.injEq]
  refine ⟨?_, ?_, ?_⟩
  · linear_combination (4 * ((y ^ 2 + z ^ 2) * p1 - x * y * p2 - x * z * p3)) * h
  · linear_combination (4 * (-(x * y) * p1 + (x ^ 2 + z ^ 2) * p2 - y * z * p3)) * h
  · linear_combination (4 * (-(x * z) * p1 - y * z * p2 + (x ^ 2 + y ^ 2) * p3)) * h

theorem applyRigid_inverse_right (T : Rigid3d) (h : quatNormSq T.rotation = 1)
    (p : Vec3) : applyRigid T (applyRigid (rigidInverse T) p) = p := by
  obtain ⟨⟨w, x, y, z⟩, t1, t2, t3⟩ := T
  obtain ⟨p1, p2, p3⟩ := p
  simp only [quatNormSq] at h
  simp only [applyRigid, rigidInverse, rotateByQuat, quatToMat, quatConj, matVec,
    vadd, vneg, Prod.mk.injEq]
  refine ⟨?_, ?_, ?_⟩
  · linear_combination
      (4 * ((y ^ 2 + z ^ 2) * (p1 - t1) - x * y * (p2 - t2) - x * z * (p3 - t3))) * h
  · linear_combination
      (4 * (-(x * y) * (p1 - t1) + (x ^ 2 + z ^ 2) * (p2 - t2) - y * z * (p3 - t3))) * h
  · linear_combination
      (4 * (-(x * z) * (p1 - t1) - y * z * (p2 - t2) + (x ^ 2 + y ^ 2) * (p3 - t3))) * h

/-! ## Export-list lemmas -/

theorem sortPoses_sorted (l : List PoseRecord) :
    (sortPoses l).Pairwise poseNameLe :=
  List.sorted_insertionSort poseNameLe l

theorem sortPoses_perm (l : List PoseRecord) : (sortPoses l).Perm l :=
  List.perm_insertionSort poseNameLe l

theorem tumExport_length (model : ModelR) :
    (tumExport model).length = (exportCameraPoses model).length := by
  simp [tumExport]

theorem colmapExport_length (model : ModelR) :
    (colmapExport model).length = (exportCameraPoses model).length := by
  simp [colmapExport]

theorem tumExport_getElem (model : ModelR) (i : Nat) :
    (tumExport model)[i]? = ((exportCameraPoses model)[i]?).map (mkTumLine i) := by
  simp only [tumExport, List.enum, List.getElem?_map, List.getElem?_enumFrom]
  cases h : (exportCameraPoses model)[i]? <;> simp [h]

theorem colmapExport_getElem (model : ModelR) (i : Nat) :
    (colmapExport model)[i]? =
      ((exportCameraPoses model)[i]?).map mkColmapLine := by
  simp [colmapExport, List.getElem?_map]

/-! ## Min/max and distance lemmas for the trajectory analysis -/

theorem foldl_min_le_init : ∀ (t : List ℚ) (a : ℚ), t.foldl min a ≤ a
  | [], a => le_refl a
  | b :: t, a => by
    simp only [List.foldl_cons]
    exact le_trans (foldl_min_le_init t (min a b)) (min_le_left a b)

theorem foldl_min_le_mem :
    ∀ (t : List ℚ) (a b : ℚ), b ∈ t → t.foldl min a ≤ b
  | c :: t, a, b, hb => by
    simp only [List.foldl_cons]
    rcases List.mem_cons.mp hb with h | h
    · subst h
      exact le_trans (foldl_min_le_init t (min a b)) (min_le_right a b)
    · exact foldl_min_le_mem t (min a c) b h

theorem foldl_min_mem : ∀ (t : List ℚ) (a : ℚ), t.foldl min a ∈ a :: t
  | [], a => List.mem_cons_self a []
  | b :: t, a => by
    simp only [List.foldl_cons]
    rcases List.mem_cons.mp (foldl_min_mem t (min a b)) with h | h
    · rcases min_choice a b with hc | hc
      · rw [h, hc]
        exact List.mem_cons_self a _
      · rw [h, hc]
        exact List.mem_cons_of_mem _ (List.mem_cons_self b _)
    · exact List.mem_cons_of_mem _ (List.mem_cons_of_mem _ h)

theorem init_le_foldl_max : ∀ (t : List ℚ) (a : ℚ), a ≤ t.foldl max a
  | [], a => le_refl a
  | b :: t, a => by
    simp only [List.foldl_cons]
    exact le_trans (le_max_left a b) (init_le_foldl_max t (max a b))

theorem mem_le_foldl_max :
    ∀ (t : List ℚ) (a b : ℚ), b ∈ t → b ≤ t.foldl max a
  | c :: t, a, b, hb => by
    simp only [List.foldl_cons]
    rcases List.mem_cons.mp hb with h | h
    · subst h
      exact le_trans (le_max_right a b) (init_le_foldl_max t (max a b))
    · exact mem_le_foldl_max t (max a c) b h

theorem foldl_max_mem : ∀ (t : List ℚ) (a : ℚ), t.foldl max a ∈ a :: t
  | [], a => List.mem_cons_self a []
  | b :: t, a => by
    simp only [List.foldl_cons]
    rcases List.mem_cons.mp (foldl_max_mem t (max a b)) with h | h
    · rcases max_choice a b with hc | hc
      · rw [h, hc]
        exact List.mem_cons_self a _
      · rw [h, hc]
        exact List.mem_cons_of_mem _ (List.mem_cons_self b _)
    · exact List.mem_cons_of_mem _ (List.mem_cons_of_mem _ h)

theorem compMin_spec (l : List ℚ) (h : l ≠ []) :
    compMin l ∈ l ∧ ∀ a ∈ l, compMin l ≤ a := by
  cases l with
  | nil => exact absurd rfl h
  | cons a t =>
    refine ⟨foldl_min_mem t a, ?_⟩
    intro b hb
    rcases List.mem_cons.mp hb with hba | hbt
    · subst hba
      exact foldl_min_le_init t b
    · exact foldl_min_le_mem t a b hbt

theorem compMax_spec (l : List ℚ) (h : l ≠ []) :
    compMax l ∈ l ∧ ∀ a ∈ l, a ≤ compMax l := by
  cases l with
  | nil => exact absurd rfl h
  | cons a t =>
    refine ⟨foldl_max_mem t a, ?_⟩
    intro b hb
    rcases List.mem_cons.mp hb with hba | hbt
    · subst hba
      exact init_le_foldl_max t b
    · exact mem_le_foldl_max t a b hbt

theorem consecutiveDistances_length :
    ∀ l : List Vec3, (consecutiveDistances l).length = l.length - 1
  | [] => by simp [consecutiveDistances]
  | [p] => by simp [consecutiveDistances]
  | p :: q :: rest => by
    have ih := consecutiveDistances_length (q :: rest)
    simp only [consecutiveDistances, List.length_cons] at *
    omega

theorem stepDistance_eq_dist (p q : Vec3) :
    stepDistance p q = dist (toE p) (toE q) := by
  have hp0 : toE p 0 = (p.1 : ℝ) := rfl
  have hp1 : toE p 1 = (p.2.1 : ℝ) := rfl
  have hp2 : toE p 2 = (p.2.2 : ℝ) := rfl
  have hq0 : toE q 0 = (q.1 : ℝ) := rfl
  have hq1 : toE q 1 = (q.2.1 : ℝ) := rfl
  have hq2 : toE q 2 = (q.2.2 : ℝ) := rfl
  rw [EuclideanSpace.dist_eq, Fin.sum_univ_three, hp0, hp1, hp2, hq0, hq1, hq2]
  simp only [Real.dist_eq, sq_abs, stepDistance]
  congr 1
  push_cast
  ring

theorem consecutiveDistances_sum :
    ∀ l : List Vec3, (consecutiveDistances l).sum = specEuclidPathLength (l.map toE)
  | [] => by simp [consecutiveDistances, specEuclidPathLength]
  | [p] => by simp [consecutiveDistances, specEuclidPathLength]
  | p :: q :: rest => by
    have ih := consecutiveDistances_sum (q :: rest)
    simp only [consecutiveDistances, List.sum_cons, List.map_cons,
      specEuclidPathLength] at *
    rw [ih, stepDistance_eq_dist]

/-! ## Claim theorems -/

/-- C1: for a video with `F` decodable frames, stride `N ≥ 1` and optional
cap `M`, `extract_frames_from_video` writes exactly the frames at decode
positions divisible by `N` (the first `M` of them when `M` is set), numbers
the written files sequentially from 0 with no gaps (names
`frame_<6-digit>.jpg`), writes `⌈F/N⌉` frames capped at `M`, returns that
count, and `process_input_files` directs the frames into a subdirectory
named after the video's stem. -/
theorem video_frame_extraction (F N : Nat) (M : Option Nat) (hN : 1 ≤ N) :
    ((extractFramesFromVideo F N M).map Prod.fst =
      ((List.range F).filter (fun k => k % N == 0)).take (M.getD F)) ∧
    ((extractFramesFromVideo F N M).map Prod.snd =
      List.range (extractFramesFromVideo F N M).length) ∧
    (extractFramesReturn F N M =
      match M with
      | none => (F + N - 1) / N
      | some m => min ((F + N - 1) / N) m) ∧
    ((extractFramesFromVideo F N M).map (fun p => frameFilename p.2) =
      (List.range (extractFramesFromVideo F N M).length).map frameFilename) ∧
    (∀ d nm, videoOutputDir d nm = d ++ "/" ++ pyStem nm) := by
  have hcnt := count_multiples N hN F
  have hfile : ∀ l : List (Nat × Nat),
      l.map (fun p => frameFilename p.2) = (l.map Prod.snd).map frameFilename := by
    intro l
    rw [List.map_map]
    rfl
  cases M with
  | none =>
    have heq : extractFramesFromVideo F N none =
        numberFrom 0 ((List.range F).filter (fun k => k % N == 0)) :=
      extractLoop_none N (List.range F) 0
    have hlen : (extractFramesFromVideo F N none).length =
        ((List.range F).filter (fun k => k % N == 0)).length := by
      rw [heq, numberFrom_length]
    have htake : ((List.range F).filter (fun k => k % N == 0)).take F =
        (List.range F).filter (fun k => k % N == 0) := by
      apply List.take_of_length_le
      calc ((List.range F).filter (fun k => k % N == 0)).length
          ≤ (List.range F).length := List.length_filter_le _ _
        _ = F := List.length_range F
    have hsnd : (extractFramesFromVideo F N none).map Prod.snd =
        List.range (extractFramesFromVideo F N none).length := by
      rw [heq, numberFrom_map_snd, numberFrom_length, ← List.range_eq_range']
    refine ⟨?_, hsnd, ?_, ?_, fun d nm => rfl⟩
    · rw [heq, numberFrom_map_fst, Option.getD_none, htake]
    · rw [extractFramesReturn, hlen, hcnt]
    · rw [hfile, hsnd]
  | some m =>
    have heq : extractFramesFromVideo F N (some m) =
        numberFrom 0 (((List.range F).filter (fun k => k % N == 0)).take m) := by
      have := extractLoop_some N m (List.range F) 0
      simpa [extractFramesFromVideo] using this
    have hlen : (extractFramesFromVideo F N (some m)).length =
        min ((F + N - 1) / N) m := by
      rw [heq, numberFrom_length, List.length_take, hcnt, Nat.min_comm]
    have hsnd : (extractFramesFromVideo F N (some m)).map Prod.snd =
        List.range (extractFramesFromVideo F N (some m)).length := by
      rw [heq, numberFrom_map_snd, numberFrom_length, ← List.range_eq_range']
    refine ⟨?_, hsnd, ?_, ?_, fun d nm => rfl⟩
    · rw [heq, numberFrom_map_fst, Option.getD_some]
    · rw [extractFramesReturn, hlen]
    · rw [hfile, hsnd]

/-- C1 witness: a 10-frame video with stride 3 and no cap, instantiating the
general theorem (frames 0, 3, 6, 9 are written as indices 0–3, and the
count is `⌈10/3⌉ = 4`). -/
theorem video_frame_extraction_witness :
    1 ≤ 3 ∧
    (((extractFramesFromVideo 10 3 none).map Prod.fst =
      ((List.range 10).filter (fun k => k % 3 == 0)).take ((none : Option Nat).getD 10)) ∧
    ((extractFramesFromVideo 10 3 none).map Prod.snd =
      List.range (extractFramesFromVideo 10 3 none).length) ∧
    (extractFramesReturn 10 3 none =
      match (none : Option Nat) with
      | none => (10 + 3 - 1) / 3
      | some m => min ((10 + 3 - 1) / 3) m) ∧
    ((extractFramesFromVideo 10 3 none).map (fun p => frameFilename p.2) =
      (List.range (extractFramesFromVideo 10 3 none).length).map frameFilename) ∧
    (∀ d nm, videoOutputDir d nm = d ++ "/" ++ pyStem nm)) :=
  ⟨by decide, video_frame_extraction 10 3 none (by decide)⟩

/-- C2: the matcher configuration is resolved to "superglue" when requested,
to "aliked+lightglue" only when the extractor name starts with "aliked" and
the matcher is "lightglue", and to "nearest_neighbor" in every other case —
in particular "lightglue" with a non-aliked extractor silently degrades to
the nearest-neighbor configuration instead of raising. -/
theorem matcher_conf_resolution (E F : String) :
    (F = "superglue" → resolveMatcherConf E F = "superglue") ∧
    (F ≠ "superglue" → strStartsWith E "aliked" = true → F = "lightglue" →
      resolveMatcherConf E F = "aliked+lightglue") ∧
    (F ≠ "superglue" → (strStartsWith E "aliked" = false ∨ F ≠ "lightglue") →
      resolveMatcherConf E F = "nearest_neighbor") ∧
    (F = "lightglue" → strStartsWith E "aliked" = false →
      resolveMatcherConf E F = "nearest_neighbor") := by
  refine ⟨?_, ?_, ?_, ?_⟩
  · intro h
    simp [resolveMatcherConf, h]
  · intro h1 h2 h3
    simp [resolveMatcherConf, h1, h2, h3]
  · intro h1 h2
    rcases h2 with h2 | h2 <;> simp [resolveMatcherConf, h1, h2]
  · intro h1 h2
    have hne : F ≠ "superglue" := by
      subst h1
      decide
    simp [resolveMatcherConf, hne, h2]

/-- C2 witness: "lightglue" with the non-aliked extractor
"superpoint_aachen" resolves to "nearest_neighbor"; the other branches at
concrete names. -/
theorem matcher_conf_resolution_witness :
    resolveMatcherConf "superpoint_aachen" "lightglue" = "nearest_neighbor" ∧
    resolveMatcherConf "aliked-n16" "lightglue" = "aliked+lightglue" ∧
    resolveMatcherConf "disk" "superglue" = "superglue" :=
  ⟨(matcher_conf_resolution "superpoint_aachen" "lightglue").2.2.2 rfl (by decide),
   (matcher_conf_resolution "aliked-n16" "lightglue").2.1 (by decide) (by decide) rfl,
   (matcher_conf_resolution "disk" "superglue").1 rfl⟩

/-- C6: a missing input directory makes `process_input_files` return an
empty processed list and a zero total without raising, and the controller
then exits with code 1 without exporting anything. -/
theorem missing_input_dir (frame_skip : Nat) (max_images : Option Nat)
    (env : RunEnv) (h : env.inputDir = none) :
    processInputFiles none frame_skip max_images = ([], 0) ∧
    mainRun env = ⟨1, none⟩ := by
  refine ⟨rfl, ?_⟩
  simp [mainRun, h, processInputFiles]

/-- C6 witness: the concrete run with no input directory. -/
theorem missing_input_dir_witness :
    processInputFiles none 1 none = ([], 0) ∧
    mainRun envMissingInput = ⟨1, none⟩ :=
  missing_input_dir 1 none envMissingInput rfl

/-- C7: when the external SfM engine hands back no model, the controller
exits with code 1 and pose export is never reached. -/
theorem null_model_fails (env : RunEnv) (h : env.sfmModel = none) :
    mainRun env = ⟨1, none⟩ := by
  by_cases h1 : (processInputFiles env.inputDir env.frameSkip env.maxImages).2 = 0
  · simp [mainRun, h1]
  · by_cases h2 : (collectImageList (some env.imagesPool)).length = 0
    · simp [mainRun, h1, h2]
    · simp [mainRun, h1, h2, extractAndMatchFeatures, runSfmReconstruction, h]

/-- C7 witness: a run with valid input whose reconstruction returns no
model. -/
theorem null_model_fails_witness : mainRun envNullModel = ⟨1, none⟩ :=
  null_model_fails envNullModel rfl

/-- C8: a non-null model with zero registered images is treated as success:
the controller reaches pose export, all three pose files describe zero
poses (after their two-line headers), and the process exits with code 0. -/
theorem zero_registered_is_success (env : RunEnv) (m : ModelR)
    (h1 : env.sfmModel = some m) (h2 : m.images = [])
    (h3 : (processInputFiles env.inputDir env.frameSkip env.maxImages).2 ≠ 0)
    (h4 : collectImageList (some env.imagesPool) ≠ []) :
    mainRun env = ⟨0, some []⟩ ∧ exportCameraPoses m = [] ∧
    tumExport m = [] ∧ colmapExport m = [] ∧
    tumHeader.length = 2 ∧ colmapHeader.length = 2 := by
  have hexp : exportCameraPoses m = [] := by
    unfold exportCameraPoses
    rw [h2]
    rfl
  have h4' : (collectImageList (some env.imagesPool)).length ≠ 0 := by
    simpa [List.length_eq_zero] using h4
  refine ⟨?_, hexp, ?_, ?_, rfl, rfl⟩
  · simp [mainRun, h3, h4', extractAndMatchFeatures, runSfmReconstruction, h1, hexp]
  · simp [tumExport, hexp]
  · simp [colmapExport, hexp]

/-- C8 witness: a one-image run whose reconstruction registered nothing. -/
theorem zero_registered_is_success_witness :
    mainRun envZeroRegistered = ⟨0, some []⟩ ∧
    exportCameraPoses ⟨[]⟩ = [] ∧
    tumExport ⟨[]⟩ = [] ∧ colmapExport ⟨[]⟩ = [] ∧
    tumHeader.length = 2 ∧ colmapHeader.length = 2 :=
  zero_registered_is_success envZeroRegistered ⟨[]⟩ rfl rfl
    (by decide) (by decide)

/-- C10: with no environment override the effective
`use_netvlad_retrieval` value is `True` whether or not the flag is passed
(the flag is `store_true` with default `True`), and the exhaustive
pair-generation path is reachable only when `USE_NETVLAD_RETRIEVAL` is set
to a non-empty value whose lowercase form is not "true". -/
theorem netvlad_retrieval_default (passed : Bool) (env : Option String) :
    effectiveUseNetvlad passed none = true ∧
    storeTrueFlag true passed = true ∧
    (choosePairStrategy (effectiveUseNetvlad passed env) = PairStrategy.exhaustive →
      ∃ s, env = some s ∧ s ≠ "" ∧ lowerStr s ≠ "true") := by
  refine ⟨?_, ?_, ?_⟩
  · cases passed <;> rfl
  · cases passed <;> rfl
  · intro h
    match env with
    | none =>
      exfalso
      cases passed <;>
        simp [choosePairStrategy, effectiveUseNetvlad, storeTrueFlag] at h
    | some s =>
      by_cases hs : s = ""
      · exfalso
        subst hs
        cases passed <;>
          simp [choosePairStrategy, effectiveUseNetvlad, storeTrueFlag] at h
      · refine ⟨s, rfl, hs, ?_⟩
        intro hlow
        have hval : effectiveUseNetvlad passed (some s) = true := by
          simp [effectiveUseNetvlad, hs, hlow]
        rw [hval] at h
        simp [choosePairStrategy] at h

/-- C10 witness: with `USE_NETVLAD_RETRIEVAL=0` in the environment the
exhaustive branch is taken, and the theorem recovers the override value. -/
theorem netvlad_retrieval_default_witness :
    ∃ s, (some "0" : Option String) = some s ∧ s ≠ "" ∧ lowerStr s ≠ "true" :=
  (netvlad_retrieval_default true (some "0")).2.2 (by decide)

/-- C4: for every registered image with a unit rotation quaternion, the pose
record stores the camera-to-world transform obtained by inverting
`cam_from_world` — translation and rotation matrix are those of the
inverse, the stored quaternion is unit and generates exactly the stored
rotation matrix, the inverse genuinely undoes the world-to-camera transform
in both directions, and `num_points3D` counts the 2D observations with a
resolved 3D point. -/
theorem pose_record_inversion (img : ImageR)
    (h : quatNormSq img.camFromWorld.rotation = 1) :
    (buildPoseRecord img).translation = (rigidInverse img.camFromWorld).translation ∧
    (buildPoseRecord img).rotationMatrix =
      quatToMat (rigidInverse img.camFromWorld).rotation ∧
    (buildPoseRecord img).quaternion = (rigidInverse img.camFromWorld).rotation ∧
    quatNormSq (buildPoseRecord img).quaternion = 1 ∧
    quatToMat (buildPoseRecord img).quaternion = (buildPoseRecord img).rotationMatrix ∧
    (∀ p : Vec3,
      applyRigid (rigidInverse img.camFromWorld) (applyRigid img.camFromWorld p) = p) ∧
    (∀ p : Vec3,
      applyRigid img.camFromWorld (applyRigid (rigidInverse img.camFromWorld) p) = p) ∧
    (buildPoseRecord img).numPoints3D =
      img.points2D.countP (fun pt => pt.point3DId.isSome) := by
  refine ⟨rfl, rfl, rfl, ?_, rfl, ?_, ?_, rfl⟩
  · show quatNormSq (quatConj img.camFromWorld.rotation) = 1
    rw [quatNormSq_conj]
    exact h
  · exact applyRigid_inverse_left img.camFromWorld h
  · exact applyRigid_inverse_right img.camFromWorld h

/-- C4 witness: the registered image `imgB`, whose rotation quaternion is
the (unit) identity. -/
theorem pose_record_inversion_witness :
    (buildPoseRecord imgB).translation = (rigidInverse imgB.camFromWorld).translation ∧
    (buildPoseRecord imgB).rotationMatrix =
      quatToMat (rigidInverse imgB.camFromWorld).rotation ∧
    (buildPoseRecord imgB).quaternion = (rigidInverse imgB.camFromWorld).rotation ∧
    quatNormSq (buildPoseRecord imgB).quaternion = 1 ∧
    quatToMat (buildPoseRecord imgB).quaternion = (buildPoseRecord imgB).rotationMatrix ∧
    (∀ p : Vec3,
      applyRigid (rigidInverse imgB.camFromWorld) (applyRigid imgB.camFromWorld p) = p) ∧
    (∀ p : Vec3,
      applyRigid imgB.camFromWorld (applyRigid (rigidInverse imgB.camFromWorld) p) = p) ∧
    (buildPoseRecord imgB).numPoints3D =
      imgB.points2D.countP (fun pt => pt.point3DId.isSome) :=
  pose_record_inversion imgB (by norm_num [quatNormSq, imgB])

/-- C3: the JSON, TUM and COLMAP exports describe the same pose multiset in
the same order — the registered images' records sorted ascending by image
name — with one TUM/COLMAP line per JSON record derived from it pointwise,
and each TUM line's translation and quaternion within the printed precision
`1e-6` of the corresponding JSON record's fields. -/
theorem export_consistency (model : ModelR) :
    (tumExport model).length = (exportCameraPoses model).length ∧
    (colmapExport model).length = (exportCameraPoses model).length ∧
    (exportCameraPoses model).Pairwise poseNameLe ∧
    (∀ a b : PoseRecord, poseNameLe a b ↔ a.imageName ≤ b.imageName) ∧
    (exportCameraPoses model).Perm (model.images.map buildPoseRecord) ∧
    (∀ i : Nat, (tumExport model)[i]? = ((exportCameraPoses model)[i]?).map (mkTumLine i)) ∧
    (∀ i : Nat, (colmapExport model)[i]? =
      ((exportCameraPoses model)[i]?).map mkColmapLine) ∧
    (∀ (i : Nat) (p : PoseRecord) (t : TumLine),
      (exportCameraPoses model)[i]? = some p →
      (tumExport model)[i]? = some t →
      t.timestamp = i ∧
      |t.tx - p.translation.1| ≤ 1 / 1000000 ∧
      |t.ty - p.translation.2.1| ≤ 1 / 1000000 ∧
      |t.tz - p.translation.2.2| ≤ 1 / 1000000 ∧
      |t.qx - p.quaternion.x| ≤ 1 / 1000000 ∧
      |t.qy - p.quaternion.y| ≤ 1 / 1000000 ∧
      |t.qz - p.quaternion.z| ≤ 1 / 1000000 ∧
      |t.qw - p.quaternion.w| ≤ 1 / 1000000) ∧
    (∀ (i : Nat) (p : PoseRecord) (c : ColmapLine),
      (exportCameraPoses model)[i]? = some p →
      (colmapExport model)[i]? = some c →
      c.imageId = p.imageId ∧ c.imageName = p.imageName ∧
      c.cameraId = p.cameraId) := by
  refine ⟨tumExport_length model, colmapExport_length model, sortPoses_sorted _,
    fun a b => strLeb_iff a.imageName b.imageName, sortPoses_perm _,
    tumExport_getElem model, colmapExport_getElem model, ?_, ?_⟩
  · intro i p t hp ht
    rw [tumExport_getElem model i, hp, Option.map_some'] at ht
    obtain rfl := (Option.some.inj ht).symm
    exact ⟨rfl, fmt6_abs_sub_le _, fmt6_abs_sub_le _, fmt6_abs_sub_le _,
      fmt6_abs_sub_le _, fmt6_abs_sub_le _, fmt6_abs_sub_le _, fmt6_abs_sub_le _⟩
  · intro i p c hp hc
    rw [colmapExport_getElem model i, hp, Option.map_some'] at hc
    obtain rfl := (Option.some.inj hc).symm
    exact ⟨rfl, rfl, rfl⟩

/-- C3 witness: in the two-image model the first TUM line is derived from
the first (name-sorted) JSON record, with all seven numeric fields within
`1e-6`. -/
theorem export_consistency_witness :
    (mkTumLine 0 (buildPoseRecord imgA)).timestamp = 0 ∧
    |(mkTumLine 0 (buildPoseRecord imgA)).tx -
      (buildPoseRecord imgA).translation.1| ≤ 1 / 1000000 ∧
    |(mkTumLine 0 (buildPoseRecord imgA)).ty -
      (buildPoseRecord imgA).translation.2.1| ≤ 1 / 1000000 ∧
    |(mkTumLine 0 (buildPoseRecord imgA)).tz -
      (buildPoseRecord imgA).translation.2.2| ≤ 1 / 1000000 ∧
    |(mkTumLine 0 (buildPoseRecord imgA)).qx -
      (buildPoseRecord imgA).quaternion.x| ≤ 1 / 1000000 ∧
    |(mkTumLine 0 (buildPoseRecord imgA)).qy -
      (buildPoseRecord imgA).quaternion.y| ≤ 1 / 1000000 ∧
    |(mkTumLine 0 (buildPoseRecord imgA)).qz -
      (buildPoseRecord imgA).quaternion.z| ≤ 1 / 1000000 ∧
    |(mkTumLine 0 (buildPoseRecord imgA)).qw -
      (buildPoseRecord imgA).quaternion.w| ≤ 1 / 1000000 :=
  (export_consistency modelTwo).2.2.2.2.2.2.2.1 0 (buildPoseRecord imgA)
    (mkTumLine 0 (buildPoseRecord imgA)) rfl rfl

/-- C5: on a pool whose entries are distinct paths, `collect_image_list`
returns exactly the regular files with an allowed (case-insensitive)
extension as relative paths, sorted ascending with no duplicates; it is
deterministic on an unchanged pool and returns the empty list when the pool
directory does not exist. -/
theorem image_list_properties (entries : List PoolEntry)
    (hnd : (entries.map PoolEntry.rel).Nodup) :
    (collectImageList (some entries)).Pairwise (· ≤ ·) ∧
    (collectImageList (some entries)).Nodup ∧
    (∀ s : String, s ∈ collectImageList (some entries) ↔
      ∃ e ∈ entries, e.isFile = true ∧ isAllowedImage e.rel = true ∧ e.rel = s) ∧
    collectImageList (some entries) = collectImageList (some entries) ∧
    collectImageList none = [] := by
  have hperm : (collectImageList (some entries)).Perm
      ((entries.filter (fun e => e.isFile && isAllowedImage e.rel)).map
        PoolEntry.rel) :=
    List.perm_insertionSort _ _
  have hsub : ((entries.filter (fun e => e.isFile && isAllowedImage e.rel)).map
      PoolEntry.rel).Sublist (entries.map PoolEntry.rel) :=
    (List.filter_sublist entries).map PoolEntry.rel
  refine ⟨?_, ?_, ?_, rfl, rfl⟩
  · have hs := List.sorted_insertionSort (fun a b : String => strLeb a b = true)
      ((entries.filter (fun e => e.isFile && isAllowedImage e.rel)).map
        PoolEntry.rel)
    exact hs.imp (fun hab => (strLeb_iff _ _).mp hab)
  · exact hperm.nodup_iff.mpr (hnd.sublist hsub)
  · intro s
    rw [hperm.mem_iff]
    simp only [List.mem_map, List.mem_filter, Bool.and_eq_true]
    constructor
    · rintro ⟨e, ⟨he, hf, ha⟩, hrel⟩
      exact ⟨e, he, hf, ha, hrel⟩
    · rintro ⟨e, he, hf, ha, hrel⟩
      exact ⟨e, ⟨he, hf, ha⟩, hrel⟩

/-- C5 witness: the two-file pool, whose relative paths are distinct. -/
theorem image_list_properties_witness :
    (collectImageList (some twoImagePool)).Pairwise (· ≤ ·) ∧
    (collectImageList (some twoImagePool)).Nodup ∧
    (∀ s : String, s ∈ collectImageList (some twoImagePool) ↔
      ∃ e ∈ twoImagePool, e.isFile = true ∧ isAllowedImage e.rel = true ∧
        e.rel = s) ∧
    collectImageList (some twoImagePool) = collectImageList (some twoImagePool) ∧
    collectImageList none = [] :=
  image_list_properties twoImagePool (by decide)

/-- C9 counterexample: a successful run (exit code 0) that exported a single
pose computes no trajectory summary at all, so the claim's "for every
successful run" quantification fails. -/
theorem trajectory_summary_counterexample :
    (mainRun envOnePose).exitCode = 0 ∧
    (mainRun envOnePose).exported = some (exportCameraPoses ⟨[imgA]⟩) ∧
    analyzeTrajectory (exportCameraPoses ⟨[imgA]⟩) = none := by
  refine ⟨by decide, rfl, ?_⟩
  have h : (exportCameraPoses ⟨[imgA]⟩).length = 1 := rfl
  simp [analyzeTrajectory, h]

/-- C9 (amended): for every successful run that exported at least two
poses, the trajectory summary exists and its total path length is the sum
of consecutive Euclidean distances between the pose translations, its mean
step is that sum divided by the number of consecutive pairs, and its
bounding-box size is the componentwise extent of the axis-aligned box of
all positions (the reported extremes being attained lower/upper bounds);
the registration-rate metric equals registered images divided by the
manifest size, reported as a percentage. -/
theorem trajectory_summary (env : RunEnv) (poses : List PoseRecord)
    (_h0 : (mainRun env).exitCode = 0)
    (_h1 : (mainRun env).exported = some poses)
    (h2 : 2 ≤ poses.length) :
    (analyzeTrajectory poses = some
      { totalDistance :=
          specEuclidPathLength ((poses.map PoseRecord.translation).map toE)
        meanStep :=
          specEuclidPathLength ((poses.map PoseRecord.translation).map toE) /
            ((poses.length - 1 : ℕ) : ℝ)
        bboxSize :=
          (compMax ((poses.map PoseRecord.translation).map Prod.fst) -
             compMin ((poses.map PoseRecord.translation).map Prod.fst),
           compMax ((poses.map PoseRecord.translation).map (fun v => v.2.1)) -
             compMin ((poses.map PoseRecord.translation).map (fun v => v.2.1)),
           compMax ((poses.map PoseRecord.translation).map (fun v => v.2.2)) -
             compMin ((poses.map PoseRecord.translation).map (fun v => v.2.2))) }) ∧
    (compMin ((poses.map PoseRecord.translation).map Prod.fst) ∈
        (poses.map PoseRecord.translation).map Prod.fst ∧
      ∀ a ∈ (poses.map PoseRecord.translation).map Prod.fst,
        compMin ((poses.map PoseRecord.translation).map Prod.fst) ≤ a) ∧
    (compMax ((poses.map PoseRecord.translation).map Prod.fst) ∈
        (poses.map PoseRecord.translation).map Prod.fst ∧
      ∀ a ∈ (poses.map PoseRecord.translation).map Prod.fst,
        a ≤ compMax ((poses.map PoseRecord.translation).map Prod.fst)) ∧
    (compMin ((poses.map PoseRecord.translation).map (fun v => v.2.1)) ∈
        (poses.map PoseRecord.translation).map (fun v => v.2.1) ∧
      ∀ a ∈ (poses.map PoseRecord.translation).map (fun v => v.2.1),
        compMin ((poses.map PoseRecord.translation).map (fun v => v.2.1)) ≤ a) ∧
    (compMax ((poses.map PoseRecord.translation).map (fun v => v.2.1)) ∈
        (poses.map PoseRecord.translation).map (fun v => v.2.1) ∧
      ∀ a ∈ (poses.map PoseRecord.translation).map (fun v => v.2.1),
        a ≤ compMax ((poses.map PoseRecord.translation).map (fun v => v.2.1))) ∧
    (compMin ((poses.map PoseRecord.translation).map (fun v => v.2.2)) ∈
        (poses.map PoseRecord.translation).map (fun v => v.2.2) ∧
      ∀ a ∈ (poses.map PoseRecord.translation).map (fun v => v.2.2),
        compMin ((poses.map PoseRecord.translation).map (fun v => v.2.2)) ≤ a) ∧
    (compMax ((poses.map PoseRecord.translation).map (fun v => v.2.2)) ∈
        (poses.map PoseRecord.translation).map (fun v => v.2.2) ∧
      ∀ a ∈ (poses.map PoseRecord.translation).map (fun v => v.2.2),
        a ≤ compMax ((poses.map PoseRecord.translation).map (fun v => v.2.2))) ∧
    (∀ m : ModelR, env.sfmModel = some m →
      reconstructionRate m (collectImageList (some env.imagesPool)) =
        (m.images.length : ℚ) /
          ((collectImageList (some env.imagesPool)).length : ℚ) * 100) := by
  have hne1 : (poses.map PoseRecord.translation).map Prod.fst ≠ [] := by
    refine List.length_pos.mp ?_
    simp only [List.length_map]
    omega
  have hne2 : (poses.map PoseRecord.translation).map (fun v : Vec3 => v.2.1) ≠ [] := by
    refine List.length_pos.mp ?_
    simp only [List.length_map]
    omega
  have hne3 : (poses.map PoseRecord.translation).map (fun v : Vec3 => v.2.2) ≠ [] := by
    refine List.length_pos.mp ?_
    simp only [List.length_map]
    omega
  refine ⟨?_, compMin_spec _ hne1, compMax_spec _ hne1, compMin_spec _ hne2,
    compMax_spec _ hne2, compMin_spec _ hne3, compMax_spec _ hne3,
    fun m _ => rfl⟩
  have hif : ¬(poses.length < 2) := by omega
  simp only [analyzeTrajectory, hif, if_false]
  rw [consecutiveDistances_sum, consecutiveDistances_length, List.length_map]

/-- C9 witness: the successful two-pose run, instantiating the amended
trajectory-summary theorem. -/
theorem trajectory_summary_witness :
    (analyzeTrajectory (exportCameraPoses modelAB) = some
      { totalDistance :=
          specEuclidPathLength
            (((exportCameraPoses modelAB).map PoseRecord.translation).map toE)
        meanStep :=
          specEuclidPathLength
            (((exportCameraPoses modelAB).map PoseRecord.translation).map toE) /
            (((exportCameraPoses modelAB).length - 1 : ℕ) : ℝ)
        bboxSize :=
          (compMax (((exportCameraPoses modelAB).map PoseRecord.translation).map
              Prod.fst) -
             compMin (((exportCameraPoses modelAB).map PoseRecord.translation).map
              Prod.fst),
           compMax (((exportCameraPoses modelAB).map PoseRecord.translation).map
              (fun v => v.2.1)) -
             compMin (((exportCameraPoses modelAB).map PoseRecord.translation).map
              (fun v => v.2.1)),
           compMax (((exportCameraPoses modelAB).map PoseRecord.translation).map
              (fun v => v.2.2)) -
             compMin (((exportCameraPoses modelAB).map PoseRecord.translation).map
              (fun v => v.2.2))) }) ∧
    (compMin (((exportCameraPoses modelAB).map PoseRecord.translation).map Prod.fst) ∈
        ((exportCameraPoses modelAB).map PoseRecord.translation).map Prod.fst ∧
      ∀ a ∈ ((exportCameraPoses modelAB).map PoseRecord.translation).map Prod.fst,
        compMin (((exportCameraPoses modelAB).map PoseRecord.translation).map
          Prod.fst) ≤ a) ∧
    (compMax (((exportCameraPoses modelAB).map PoseRecord.translation).map Prod.fst) ∈
        ((exportCameraPoses modelAB).map PoseRecord.translation).map Prod.fst ∧
      ∀ a ∈ ((exportCameraPoses modelAB).map PoseRecord.translation).map Prod.fst,
        a ≤ compMax (((exportCameraPoses modelAB).map PoseRecord.translation).map
          Prod.fst)) ∧
    (compMin (((exportCameraPoses modelAB).map PoseRecord.translation).map
        (fun v => v.2.1)) ∈
        ((exportCameraPoses modelAB).map PoseRecord.translation).map (fun v => v.2.1) ∧
      ∀ a ∈ ((exportCameraPoses modelAB).map PoseRecord.translation).map
          (fun v => v.2.1),
        compMin (((exportCameraPoses modelAB).map PoseRecord.translation).map
          (fun v => v.2.1)) ≤ a) ∧
    (compMax (((exportCameraPoses modelAB).map PoseRecord.translation).map
        (fun v => v.2.1)) ∈
        ((exportCameraPoses modelAB).map PoseRecord.translation).map (fun v => v.2.1) ∧
      ∀ a ∈ ((exportCameraPoses modelAB).map PoseRecord.translation).map
          (fun v => v.2.1),
        a ≤ compMax (((exportCameraPoses modelAB).map PoseRecord.translation).map
          (fun v => v.2.1))) ∧
    (compMin (((exportCameraPoses modelAB).map PoseRecord.translation).map
        (fun v => v.2.2)) ∈
        ((exportCameraPoses modelAB).map PoseRecord.translation).map (fun v => v.2.2) ∧
      ∀ a ∈ ((exportCameraPoses modelAB).map PoseRecord.translation).map
          (fun v => v.2.2),
        compMin (((exportCameraPoses modelAB).map PoseRecord.translation).map
          (fun v => v.2.2)) ≤ a) ∧
    (compMax (((exportCameraPoses modelAB).map PoseRecord.translation).map
        (fun v => v.2.2)) ∈
        ((exportCameraPoses modelAB).map PoseRecord.translation).map (fun v => v.2.2) ∧
      ∀ a ∈ ((exportCameraPoses modelAB).map PoseRecord.translation).map
          (fun v => v.2.2),
        a ≤ compMax (((exportCameraPoses modelAB).map PoseRecord.translation).map
          (fun v => v.2.2))) ∧
    (∀ m : ModelR, envTwoPoses.sfmModel = some m →
      reconstructionRate m (collectImageList (some envTwoPoses.imagesPool)) =
        (m.images.length : ℚ) /
          ((collectImageList (some envTwoPoses.imagesPool)).length : ℚ) * 100) :=
  trajectory_summary envTwoPoses (exportCameraPoses modelAB) rfl rfl (by decide)

end HlocPose
